import Mathlib

set_option maxRecDepth 100000

/-!
Verification development for the CurrencyConversionGUI repository.

The development shallowly embeds the three core modules:
* `models/currency.py` — the `Currency` entity and its `convert` method;
* `business/currency_service.py` — `find_last_quarter_date`,
  `handle_request_errors` and `parse_treasury_response`;
* `dal/dal.py` — `fetch_treasury_data`.

Conventions of the embedding:
* Python exceptions become the inductive `PyExc`; a function that can raise
  returns `Except PyExc α`.
* `datetime.date` values become the `Date` structure (year/month/day as `Nat`).
  `datetime.now()` is modelled as an explicit `now : Date` input, since the
  wall-clock read is the only impure part of the functions involved.
* Python floats are modelled as exact rationals (`ℚ`); the numeric instances
  appearing in the theorems below are exactly representable and round the same
  way under IEEE double arithmetic as under exact arithmetic.
* Python dicts (which preserve insertion order) become association lists.
-/

/-- Python exception classes that appear in the program. -/
inductive PyExc where
  | HTTPError
  | JSONDecodeError
  | KeyError
  | IndexError
  | ValueError
  | BusinessLogicException
  | DalException
  deriving DecidableEq, Repr

deriving instance DecidableEq for Except

/-- A calendar date, as `datetime.date` (year, month, day). -/
structure Date where
  year : Nat
  month : Nat
  day : Nat
  deriving DecidableEq, Repr

/-- Gregorian leap-year rule, as implemented by Python's `datetime`. -/
def isLeap (y : Nat) : Bool :=
  (y % 4 == 0 && y % 100 != 0) || y % 400 == 0

def daysInYear (y : Nat) : Nat :=
  if isLeap y then 366 else 365

def daysInMonth (y m : Nat) : Nat :=
  match m with
  | 1 => 31
  | 2 => if isLeap y then 29 else 28
  | 3 => 31
  | 4 => 30
  | 5 => 31
  | 6 => 30
  | 7 => 31
  | 8 => 31
  | 9 => 30
  | 10 => 31
  | 11 => 30
  | 12 => 31
  | _ => 0

/-- Days in the months strictly before month `m` of a non-leap year. -/
def cumDays (m : Nat) : Nat :=
  match m with
  | 1 => 0
  | 2 => 31
  | 3 => 59
  | 4 => 90
  | 5 => 120
  | 6 => 151
  | 7 => 181
  | 8 => 212
  | 9 => 243
  | 10 => 273
  | 11 => 304
  | 12 => 334
  | _ => 0

/-- One-based ordinal of a date within its year. -/
def dayOfYear (d : Date) : Nat :=
  cumDays d.month + (if 3 ≤ d.month then (if isLeap d.year then 1 else 0) else 0) + d.day

/-- Validity of a `Date`, as enforced by the `datetime.date` constructor. -/
def ValidDate (d : Date) : Prop :=
  1 ≤ d.year ∧ 1 ≤ d.month ∧ d.month ≤ 12 ∧ 1 ≤ d.day ∧ d.day ≤ daysInMonth d.year d.month

instance (d : Date) : Decidable (ValidDate d) := by
  unfold ValidDate
  infer_instance

/-- Recover (month, day) from a 1-based ordinal by scanning the twelve months. -/
def mdFrom (y : Nat) : Nat → Nat → Nat → Nat × Nat
  | 0, m, o => (m, o)
  | fuel + 1, m, o =>
    if o ≤ daysInMonth y m then (m, o) else mdFrom y fuel (m + 1) (o - daysInMonth y m)

def dateFromOrdinal (y o : Nat) : Date :=
  ⟨y, (mdFrom y 12 1 o).1, (mdFrom y 12 1 o).2⟩

/-- Exact day arithmetic of `date - timedelta(days=365)`: step back 365 days,
crossing into the previous year when the date's ordinal is at most 365. -/
def subDays365 (d : Date) : Date :=
  if 365 < dayOfYear d then
    dateFromOrdinal d.year (dayOfYear d - 365)
  else
    dateFromOrdinal (d.year - 1) (dayOfYear d + daysInYear (d.year - 1) - 365)

/- Constants of `business/currency_service.py`. -/
def APRIL : Nat := 4
def ONE_YEAR_IN_DAYS : Nat := 365
def JULY : Nat := 7
def OCTOBER : Nat := 10
def DECEMBER : Nat := 12

/-- Embedding of `find_last_quarter_date` in `business/currency_service.py`, with the
`datetime.now()` read made an explicit `today` input.  The Jan-Mar branch
subtracts `timedelta(days=ONE_YEAR_IN_DAYS)` and then builds Dec 31 of the
resulting datetime's year via `strptime`, modelled as direct construction. -/
def find_last_quarter_date (today : Date) : Except PyExc Date :=
  if today.month < APRIL then
    Except.ok ⟨(subDays365 today).year, 12, 31⟩
  else if today.month < JULY then
    Except.ok ⟨today.year, 3, 31⟩
  else if today.month < OCTOBER then
    Except.ok ⟨today.year, 6, 30⟩
  else if today.month ≤ DECEMBER then
    Except.ok ⟨today.year, 9, 30⟩
  else
    Except.error PyExc.BusinessLogicException

/-- A date in Jan-Mar has ordinal at most 91, hence the 365-day step back
always lands in the previous calendar year. -/
lemma subDays365_year_of_firstQuarter (d : Date) (hm : d.month ≤ 3)
    (hd : d.day ≤ 31) : (subDays365 d).year = d.year - 1 := by
  have ho : dayOfYear d ≤ 365 := by
    unfold dayOfYear
    have hc : cumDays d.month ≤ 59 := by
      unfold cumDays
      match h : d.month with
      | 0 => simp
      | 1 => simp
      | 2 => simp
      | 3 => simp
      | n + 4 => omega
    split <;> first | (split <;> omega) | omega
  unfold subDays365
  rw [if_neg (by omega)]
  rfl

/-- The resolver only consults the month, so each branch is settled by the
month bounds alone. -/
lemma find_last_quarter_date_branches (d : Date) :
    (d.month ≤ 3 → find_last_quarter_date d = Except.ok ⟨(subDays365 d).year, 12, 31⟩)
    ∧ (4 ≤ d.month → d.month ≤ 6 → find_last_quarter_date d = Except.ok ⟨d.year, 3, 31⟩)
    ∧ (7 ≤ d.month → d.month ≤ 9 → find_last_quarter_date d = Except.ok ⟨d.year, 6, 30⟩)
    ∧ (10 ≤ d.month → d.month ≤ 12 → find_last_quarter_date d = Except.ok ⟨d.year, 9, 30⟩) := by
  unfold find_last_quarter_date APRIL JULY OCTOBER DECEMBER
  refine ⟨fun h => ?_, fun h h' => ?_, fun h h' => ?_, fun h h' => ?_⟩
  · rw [if_pos (by omega)]
  · rw [if_neg (by omega), if_pos (by omega)]
  · rw [if_neg (by omega), if_neg (by omega), if_pos (by omega)]
  · rw [if_neg (by omega), if_neg (by omega), if_neg (by omega), if_pos (by omega)]

/-- Every month in 1..12 reaches one of the four `ok` branches. -/
lemma find_last_quarter_date_ok (d : Date) (h : d.month ≤ 12) :
    ∃ q, find_last_quarter_date d = Except.ok q := by
  unfold find_last_quarter_date APRIL JULY OCTOBER DECEMBER
  split_ifs <;> first | exact ⟨_, rfl⟩ | (exfalso; omega)

/-- C1: for every valid reference date (of year at least 2, so that the 365-day
step back stays inside the calendar), the quarter-end resolver follows the
fixed table: Jan-Mar of year Y yields Dec 31 of year Y-1, Apr-Jun yields
Mar 31 of Y, Jul-Sep yields Jun 30 of Y, Oct-Dec yields Sep 30 of Y. -/
theorem claim_C1_quarter_table (d : Date) (hv : ValidDate d) (hy : 2 ≤ d.year) :
    (d.month ≤ 3 → find_last_quarter_date d = Except.ok ⟨d.year - 1, 12, 31⟩)
    ∧ (4 ≤ d.month → d.month ≤ 6 → find_last_quarter_date d = Except.ok ⟨d.year, 3, 31⟩)
    ∧ (7 ≤ d.month → d.month ≤ 9 → find_last_quarter_date d = Except.ok ⟨d.year, 6, 30⟩)
    ∧ (10 ≤ d.month → d.month ≤ 12 → find_last_quarter_date d = Except.ok ⟨d.year, 9, 30⟩) := by
  obtain ⟨h1, h2, h3, h4, h5⟩ := hv
  obtain ⟨b1, b2, b3, b4⟩ := find_last_quarter_date_branches d
  refine ⟨fun h => ?_, b2, b3, b4⟩
  have hd31 : d.day ≤ 31 := by
    have : daysInMonth d.year d.month ≤ 31 := by
      unfold daysInMonth
      split <;> first | omega | (split <;> omega)
    omega
  rw [b1 h, subDays365_year_of_firstQuarter d h hd31]

/-- Witness for C1 at the claim's own example: a reference date of
Jan 1 2021 yields Dec 31 2020. -/
theorem claim_C1_quarter_table_witness :
    find_last_quarter_date ⟨2021, 1, 1⟩ = Except.ok ⟨2020, 12, 31⟩ :=
  (claim_C1_quarter_table ⟨2021, 1, 1⟩ (by decide) (by decide)).1 (by decide)

/-- C8: the resolver's error branch is unreachable — for every reference date
whose month is in 1..12 it returns a quarter-end date. -/
theorem claim_C8_no_error (d : Date) (h1 : 1 ≤ d.month) (h2 : d.month ≤ 12) :
    ∃ q, find_last_quarter_date d = Except.ok q :=
  find_last_quarter_date_ok d h2

/-- Witness for C8 at a concrete reference date. -/
theorem claim_C8_no_error_witness :
    ∃ q, find_last_quarter_date ⟨2023, 10, 5⟩ = Except.ok q :=
  claim_C8_no_error ⟨2023, 10, 5⟩ (by decide) (by decide)

/-- C9 (supporting evaluation): the resolver evaluated at the modelled
wall-clock read; in the source the date is *not* an injected parameter —
`find_last_quarter_date()` takes no arguments and calls `datetime.now()`
itself, so the embedding makes that read explicit as the input shown here. -/
theorem claim_C9_eval_at_clock_read :
    find_last_quarter_date ⟨2021, 1, 1⟩ = Except.ok ⟨2020, 12, 31⟩ := by
  decide

/-- A value stored as a conversion rate: the API may deliver the
`exchange_rate` field as a number or as a string; `Currency.__init__`
stores it unchanged. -/
inductive RateVal where
  | num (q : ℚ)
  | str (s : String)
  deriving DecidableEq, Repr

/-- All-digit, non-empty string to a natural number. -/
def digitsToNat? (s : String) : Option Nat :=
  if s.length ≠ 0 ∧ s.all Char.isDigit then
    some (s.foldl (fun n c => n * 10 + (c.toNat - 48)) 0)
  else
    none

/-- The subset of Python `float(str)` parsing the program can meet: optional
sign, digits with at most one decimal point, surrounding whitespace stripped.
`none` models the `ValueError` raised on anything else. -/
def pyFloatOfString (s : String) : Option ℚ :=
  let t := s.trim
  let sgn : ℚ := if t.startsWith "-" then -1 else 1
  let u := if t.startsWith "-" || t.startsWith "+" then t.drop 1 else t
  match u.splitOn "." with
  | [a] => (digitsToNat? a).map (fun n => sgn * n)
  | [a, b] =>
    if a.isEmpty then
      (digitsToNat? b).map (fun n => sgn * n / 10 ^ b.length)
    else if b.isEmpty then
      (digitsToNat? a).map (fun n => sgn * n)
    else
      match digitsToNat? a, digitsToNat? b with
      | some n, some m => some (sgn * (n + (m : ℚ) / 10 ^ b.length))
      | _, _ => none
  | _ => none

/-- Coercion `float(x)` applied to a stored rate: numbers pass through, strings are
parsed, anything unparseable raises `ValueError`. -/
def pyFloat : RateVal → Except PyExc ℚ
  | RateVal.num q => Except.ok q
  | RateVal.str s =>
    match pyFloatOfString s with
    | some q => Except.ok q
    | none => Except.error PyExc.ValueError

/-- Floor of a rational as an integer. -/
def ratFloor (x : ℚ) : ℤ :=
  Int.fdiv x.num (x.den : ℤ)

/-- Round to the nearest integer, ties to even — the rounding used by
Python's fixed-point float formatting. -/
def roundHalfEven (x : ℚ) : ℤ :=
  if x - ratFloor x < 1 / 2 then ratFloor x
  else if (1 : ℚ) / 2 < x - ratFloor x then ratFloor x + 1
  else if ratFloor x % 2 = 0 then ratFloor x else ratFloor x + 1

/-- Insert a comma after every three characters of a reversed digit list. -/
def commaRev : List Char → List Char
  | a :: b :: c :: d :: rest => a :: b :: c :: ',' :: commaRev (d :: rest)
  | l => l

/-- Decimal rendering of a natural number with thousands separators. -/
def groupedNat (n : Nat) : String :=
  String.mk (commaRev (Nat.toDigits 10 n).reverse).reverse

/-- Two-digit zero-padded rendering of a value below 100. -/
def twoDigits (n : Nat) : String :=
  (if n < 10 then "0" else "") ++ Nat.repr n

/-- Python's format specifier `,.2f`: two decimal places (ties to even) and
thousands separators in the integer part. -/
def fmtComma2 (x : ℚ) : String :=
  (if roundHalfEven (100 * x) < 0 then "-" else "")
    ++ groupedNat ((roundHalfEven (100 * x)).natAbs / 100)
    ++ "."
    ++ twoDigits ((roundHalfEven (100 * x)).natAbs % 100)

/-- The `Currency` entity of `models/currency.py`: `__init__` stores its three
arguments unchanged, with no validation. -/
structure Currency where
  country_name : String
  currency_name : String
  conversion_rate : RateVal
  deriving DecidableEq, Repr

/-- Method `Currency.convert`: multiply the USD amount by `float(conversion_rate)`
and render the f-string with both amounts in `,.2f` format. -/
def Currency.convert (c : Currency) (usd_amount : ℚ) : Except PyExc String :=
  match pyFloat c.conversion_rate with
  | Except.error e => Except.error e
  | Except.ok r =>
    Except.ok ("$" ++ fmtComma2 usd_amount ++ " USD = "
      ++ fmtComma2 (usd_amount * r) ++ " " ++ c.currency_name)

/-- C2: `convert` multiplies the amount by the rate and formats both amounts
with two decimals, thousands separators and the currency name; at the claim's
instance, `Currency("Germany","Euro",0.94).convert(100.0)` is exactly
`"$100.00 USD = 94.00 Euro"`, and an amount of 2000 shows the separators. -/
theorem claim_C2_convert_format :
    Currency.convert ⟨"Germany", "Euro", RateVal.num 0.94⟩ 100
      = Except.ok "$100.00 USD = 94.00 Euro"
    ∧ Currency.convert ⟨"Germany", "Euro", RateVal.num 0.94⟩ 2000
      = Except.ok "$2,000.00 USD = 1,880.00 Euro" := by
  constructor
  · with_unfolding_all decide
  · with_unfolding_all decide

/-- C10: construction stores the rate unchanged with no validation — it
succeeds for every rate value, including non-numeric strings — and only
`convert` coerces the rate with `float(...)`, so an unparseable rate makes
`convert` raise a plain `ValueError`, which is a different exception from
the `BusinessLogicException`/`DalException` data-access kinds. -/
theorem claim_C10_lazy_rate_validation :
    (∀ (cn curn : String) (r : RateVal),
        (Currency.mk cn curn r).conversion_rate = r
        ∧ (Currency.mk cn curn r).country_name = cn
        ∧ (Currency.mk cn curn r).currency_name = curn)
    ∧ Currency.convert ⟨"Nowhere", "Testo", RateVal.str "abc"⟩ 100
        = Except.error PyExc.ValueError
    ∧ PyExc.ValueError ≠ PyExc.BusinessLogicException
    ∧ PyExc.ValueError ≠ PyExc.DalException :=
  ⟨fun _ _ _ => ⟨rfl, rfl, rfl⟩, by with_unfolding_all decide, by decide, by decide⟩

/-- Witness for C10's universal part at a concrete construction. -/
theorem claim_C10_lazy_rate_validation_witness :
    (Currency.mk "Mars" "Credit" (RateVal.str "zz")).conversion_rate
      = RateVal.str "zz" :=
  (claim_C10_lazy_rate_validation.1 "Mars" "Credit" (RateVal.str "zz")).1

/-- A raw API row, as a JSON object: each expected key may be absent, in
which case subscripting raises `KeyError`.  The `record_date` value is kept
as the raw string fed to `strptime`. -/
structure RawRow where
  record_date : Option String
  country : Option String
  currency : Option String
  exchange_rate : Option RateVal
  deriving DecidableEq, Repr

/-- The decoded JSON document: the `data` key may be absent. -/
structure Payload where
  data : Option (List RawRow)
  deriving DecidableEq, Repr

/-- An HTTP response as the parser sees it: a status code and, when the body
is decodable JSON, the decoded payload (`none` models a body on which
`response.json()` raises `JSONDecodeError`). -/
structure Response where
  status_code : Nat
  body : Option Payload
  deriving DecidableEq, Repr

/-- Call `response.raise_for_status()`: `requests` raises `HTTPError` exactly for
status codes in 400..599. -/
def raise_for_status (r : Response) : Except PyExc Unit :=
  if 400 ≤ r.status_code ∧ r.status_code < 600 then
    Except.error PyExc.HTTPError
  else
    Except.ok ()

/-- Call `response.json()`. -/
def response_json (r : Response) : Except PyExc Payload :=
  match r.body with
  | some p => Except.ok p
  | none => Except.error PyExc.JSONDecodeError

/-- Subscript of the decoded document at the key named data. -/
def payload_data (p : Payload) : Except PyExc (List RawRow) :=
  match p.data with
  | some rows => Except.ok rows
  | none => Except.error PyExc.KeyError

/-- Call to `strptime` with the dashed year-month-day format: three dash-separated all-digit
components — four digits of year, at most two of month and day — forming a
calendar-valid date; anything else raises `ValueError`. -/
def parseDateStr (s : String) : Option Date :=
  match s.splitOn "-" with
  | [ys, ms, ds] =>
    match digitsToNat? ys, digitsToNat? ms, digitsToNat? ds with
    | some y, some m, some d =>
      if ys.length = 4 ∧ ms.length ≤ 2 ∧ ds.length ≤ 2
          ∧ 1 ≤ y ∧ 1 ≤ m ∧ m ≤ 12 ∧ 1 ≤ d ∧ d ≤ daysInMonth y m then
        some ⟨y, m, d⟩
      else
        none
    | _, _, _ => none
  | _ => none

/-- A fully extracted row: the four loop variables of the parsing loop. -/
structure Row where
  record_date : Date
  country : String
  currency : String
  exchange_rate : RateVal
  deriving DecidableEq, Repr

/-- The variable-extraction prefix of each loop iteration: subscript
`record_date` and parse it with `strptime`, then subscript `country`,
`currency` and `exchange_rate`. -/
def parseRow (r : RawRow) : Except PyExc Row :=
  match r.record_date with
  | none => Except.error PyExc.KeyError
  | some rds =>
    match parseDateStr rds with
    | none => Except.error PyExc.ValueError
    | some rd =>
      match r.country with
      | none => Except.error PyExc.KeyError
      | some cn =>
        match r.currency with
        | none => Except.error PyExc.KeyError
        | some curn =>
          match r.exchange_rate with
          | none => Except.error PyExc.KeyError
          | some ex => Except.ok ⟨rd, cn, curn, ex⟩

/-- The insertion-ordered dict from country name to its list of currencies. -/
abbrev CurrencyDict := List (String × List Currency)

/-- Key lookup in the insertion-ordered dict. -/
def assocLookup (k : String) : CurrencyDict → Option (List Currency)
  | [] => none
  | (k', l) :: rest => if k' = k then some l else assocLookup k rest

/-- Membership test `country_name in currency_dict.keys()`. -/
def containsKey (d : CurrencyDict) (k : String) : Bool :=
  d.any (fun p => p.1 == k)

/-- Append step `currency_dict[country_name].append(new_currency)`: extend the list held
at an existing key, leaving key order untouched. -/
def dictAppend : CurrencyDict → String → Currency → CurrencyDict
  | [], _, _ => []
  | (k', l) :: rest, k, c =>
    if k' = k then (k', l ++ [c]) :: rest else (k', l) :: dictAppend rest k c

/-- The body of the `record_date == last_quarter_date` branch: append to the
existing country entry, or create the entry at the end of the dict. -/
def addCurrency (d : CurrencyDict) (cn : String) (c : Currency) : CurrencyDict :=
  if containsKey d cn then dictAppend d cn c else d ++ [(cn, [c])]

/-- One loop iteration on an extracted row. -/
def stepRow (q : Date) (d : CurrencyDict) (t : Row) : CurrencyDict :=
  if t.record_date = q then
    addCurrency d t.country ⟨t.country, t.currency, t.exchange_rate⟩
  else
    d

/-- The parsing loop over the `data` rows, threading `currency_dict`. -/
def processRows (q : Date) : List RawRow → CurrencyDict → Except PyExc CurrencyDict
  | [], d => Except.ok d
  | r :: rs, d =>
    match parseRow r with
    | Except.error e => Except.error e
    | Except.ok t => processRows q rs (stepRow q d t)

/-- The undecorated body of `parse_treasury_response`: validate the status,
decode the body, resolve the quarter end, then run the loop on `data`. -/
def parse_treasury_response_body (now : Date) (response : Response) :
    Except PyExc CurrencyDict :=
  match raise_for_status response with
  | Except.error e => Except.error e
  | Except.ok _ =>
    match response_json response with
    | Except.error e => Except.error e
    | Except.ok pj =>
      match find_last_quarter_date now with
      | Except.error e => Except.error e
      | Except.ok q =>
        match payload_data pj with
        | Except.error e => Except.error e
        | Except.ok rows => processRows q rows []

/-- The `handle_request_errors` decorator: re-raise `HTTPError`,
`JSONDecodeError`, `KeyError` and `IndexError` as `BusinessLogicException`;
successes and any other exception pass through. -/
def handle_request_errors {α : Type} (x : Except PyExc α) : Except PyExc α :=
  match x with
  | Except.ok a => Except.ok a
  | Except.error PyExc.HTTPError => Except.error PyExc.BusinessLogicException
  | Except.error PyExc.JSONDecodeError => Except.error PyExc.BusinessLogicException
  | Except.error PyExc.KeyError => Except.error PyExc.BusinessLogicException
  | Except.error PyExc.IndexError => Except.error PyExc.BusinessLogicException
  | Except.error e => Except.error e

/-- Function `parse_treasury_response` as exposed: the body wrapped by the decorator. -/
def parse_treasury_response (now : Date) (response : Response) :
    Except PyExc CurrencyDict :=
  handle_request_errors (parse_treasury_response_body now response)

/-- The exceptions `requests.get` can raise, as caught in `dal.py`
(`Timeout` and `ConnectionError` are themselves `RequestException`s; the
third alternative stands for any other `RequestException`). -/
inductive RequestsError where
  | Timeout
  | ConnectionError
  | RequestException
  deriving DecidableEq, Repr

/-- Embedding of `fetch_treasury_data` in `dal/dal.py`, with the outcome of the single
`requests.get` call made an explicit input: a successful response is returned
unchanged, and each of the three caught transport exceptions is re-raised as
`DalException`. -/
def fetch_treasury_data (net : Except RequestsError Response) : Except PyExc Response :=
  match net with
  | Except.ok r => Except.ok r
  | Except.error RequestsError.Timeout => Except.error PyExc.DalException
  | Except.error RequestsError.ConnectionError => Except.error PyExc.DalException
  | Except.error RequestsError.RequestException => Except.error PyExc.DalException

/-- Decode every row of the payload in order; the first failing row's
exception is the loop's exception. -/
def decodeRows : List RawRow → Except PyExc (List Row)
  | [] => Except.ok []
  | r :: rs =>
    match parseRow r with
    | Except.error e => Except.error e
    | Except.ok t =>
      match decodeRows rs with
      | Except.error e => Except.error e
      | Except.ok ts => Except.ok (t :: ts)

/-- A list as an optional dict entry: absent when empty. -/
def listToOpt (l : List Currency) : Option (List Currency) :=
  match l with
  | [] => none
  | x :: xs => some (x :: xs)

/-- Extend an optional dict entry by a list of later matches. -/
def combineOpt : Option (List Currency) → List Currency → Option (List Currency)
  | none, [] => none
  | none, x :: xs => some (x :: xs)
  | some l, m => some (l ++ m)

/-- Stated from the spec's description of the mapping: the currencies of the
rows whose record date equals the resolved quarter end and whose country is
`c`, in input order. -/
def specMatchingCurrencies (q : Date) (c : String) (ts : List Row) : List Currency :=
  (ts.filter (fun t => decide (t.record_date = q ∧ t.country = c))).map
    (fun t => ⟨t.country, t.currency, t.exchange_rate⟩)

lemma combineOpt_none (l : List Currency) : combineOpt none l = listToOpt l := by
  cases l <;> rfl

lemma combineOpt_snoc (L : Option (List Currency)) (x : Currency) (m : List Currency) :
    combineOpt (some (L.getD [] ++ [x])) m = combineOpt L (x :: m) := by
  cases L <;> simp [combineOpt]

lemma assocLookup_append (c : String) (d e : CurrencyDict) :
    assocLookup c (d ++ e) =
      match assocLookup c d with
      | some l => some l
      | none => assocLookup c e := by
  induction d with
  | nil => simp [assocLookup]
  | cons p rest ih =>
    obtain ⟨k, l⟩ := p
    by_cases h : k = c
    · simp [assocLookup, h]
    · simp [assocLookup, h, ih]

lemma containsKey_false_lookup (d : CurrencyDict) (k : String)
    (h : containsKey d k = false) : assocLookup k d = none := by
  induction d with
  | nil => rfl
  | cons p rest ih =>
    obtain ⟨k', l⟩ := p
    simp [containsKey] at h
    simp [assocLookup, h.1]
    exact ih (by simp [containsKey]; exact h.2)

lemma dictAppend_lookup (d : CurrencyDict) (k : String) (x : Currency)
    (c : String) (h : containsKey d k = true) :
    assocLookup c (dictAppend d k x) =
      if c = k then some ((assocLookup c d).getD [] ++ [x]) else assocLookup c d := by
  induction d with
  | nil => simp [containsKey] at h
  | cons p rest ih =>
    obtain ⟨k', l⟩ := p
    by_cases hk : k' = k
    · subst hk
      by_cases hc : c = k'
      · subst hc
        simp [dictAppend, assocLookup]
      · have hk'c : k' ≠ c := fun h' => hc h'.symm
        simp [dictAppend, assocLookup, hk'c, hc]
    · have hrest : containsKey rest k = true := by
        simp [containsKey] at h
        rcases h with h | h
        · exact absurd h hk
        · simpa [containsKey] using h
      by_cases hc : k' = c
      · subst hc
        simp [dictAppend, assocLookup, hk]
      · simp [dictAppend, assocLookup, hk, hc, ih hrest]

lemma addCurrency_lookup (d : CurrencyDict) (k : String) (x : Currency) (c : String) :
    assocLookup c (addCurrency d k x) =
      if c = k then some ((assocLookup c d).getD [] ++ [x]) else assocLookup c d := by
  unfold addCurrency
  by_cases hck : containsKey d k = true
  · rw [if_pos hck]
    exact dictAppend_lookup d k x c hck
  · rw [if_neg hck]
    have hnone := containsKey_false_lookup d k (Bool.eq_false_iff.mpr hck)
    rw [assocLookup_append]
    by_cases hc : c = k
    · subst hc
      rw [hnone]
      simp [assocLookup, hnone]
    · have hkc : k ≠ c := fun h' => hc h'.symm
      simp [assocLookup, hkc, hc]
      cases assocLookup c d <;> simp

lemma foldl_stepRow_lookup (q : Date) (c : String) :
    ∀ (ts : List Row) (d : CurrencyDict),
      assocLookup c (List.foldl (stepRow q) d ts) =
        combineOpt (assocLookup c d) (specMatchingCurrencies q c ts) := by
  intro ts
  induction ts with
  | nil =>
    intro d
    cases h : assocLookup c d <;> simp [specMatchingCurrencies, combineOpt, h]
  | cons t ts ih =>
    intro d
    rw [List.foldl_cons, ih]
    by_cases hq : t.record_date = q
    · by_cases hc : t.country = c
      · have hstep : stepRow q d t = addCurrency d t.country ⟨t.country, t.currency, t.exchange_rate⟩ := by
          simp [stepRow, hq]
        rw [hstep, addCurrency_lookup, if_pos hc.symm]
        have hspec : specMatchingCurrencies q c (t :: ts)
            = (⟨t.country, t.currency, t.exchange_rate⟩ : Currency) :: specMatchingCurrencies q c ts := by
          simp [specMatchingCurrencies, List.filter_cons, hq, hc]
        rw [hspec, combineOpt_snoc]
      · have hstep : stepRow q d t = addCurrency d t.country ⟨t.country, t.currency, t.exchange_rate⟩ := by
          simp [stepRow, hq]
        have hck : ¬ c = t.country := fun h' => hc h'.symm
        rw [hstep, addCurrency_lookup, if_neg hck]
        have hspec : specMatchingCurrencies q c (t :: ts) = specMatchingCurrencies q c ts := by
          simp [specMatchingCurrencies, List.filter_cons, hq, hc]
        rw [hspec]
    · have hstep : stepRow q d t = d := by simp [stepRow, hq]
      have hspec : specMatchingCurrencies q c (t :: ts) = specMatchingCurrencies q c ts := by
        simp [specMatchingCurrencies, List.filter_cons, hq]
      rw [hstep, hspec]

lemma processRows_of_decodeRows (q : Date) :
    ∀ (rows : List RawRow) (ts : List Row) (d : CurrencyDict),
      decodeRows rows = Except.ok ts →
      processRows q rows d = Except.ok (List.foldl (stepRow q) d ts) := by
  intro rows
  induction rows with
  | nil =>
    intro ts d h
    unfold decodeRows at h
    cases h
    rfl
  | cons r rs ih =>
    intro ts d h
    unfold decodeRows at h
    cases hp : parseRow r with
    | error e => rw [hp] at h; exact absurd h (by simp)
    | ok t =>
      rw [hp] at h
      cases hd : decodeRows rs with
      | error e => rw [hd] at h; exact absurd h (by simp)
      | ok ts' =>
        rw [hd] at h
        have hts : ts = t :: ts' := by
          cases h
          rfl
        subst hts
        show (match parseRow r with
          | Except.error e => Except.error e
          | Except.ok t => processRows q rs (stepRow q d t)) = _
        rw [hp]
        show processRows q rs (stepRow q d t) = Except.ok (List.foldl (stepRow q) d (t :: ts'))
        rw [ih ts' (stepRow q d t) hd, List.foldl_cons]

lemma foldl_stepRow_nomatch (q : Date) :
    ∀ (ts : List Row) (d : CurrencyDict), (∀ t ∈ ts, t.record_date ≠ q) →
      List.foldl (stepRow q) d ts = d := by
  intro ts
  induction ts with
  | nil => intro d _; rfl
  | cons t ts ih =>
    intro d h
    rw [List.foldl_cons]
    have hstep : stepRow q d t = d := by
      simp [stepRow, h t (by simp)]
    rw [hstep, ih d (fun t' ht' => h t' (by simp [ht']))]

lemma dictAppend_nonempty (k : String) (x : Currency) :
    ∀ (d : CurrencyDict), (∀ p ∈ d, p.2 ≠ []) →
      ∀ p ∈ dictAppend d k x, p.2 ≠ [] := by
  intro d
  induction d with
  | nil => intro _ p hp; cases hp
  | cons e rest ih =>
    intro h p hp
    obtain ⟨k', l⟩ := e
    by_cases hk : k' = k
    · rw [dictAppend, if_pos hk] at hp
      rcases List.mem_cons.mp hp with rfl | hp
      · simp
      · exact h p (List.mem_cons_of_mem _ hp)
    · rw [dictAppend, if_neg hk] at hp
      rcases List.mem_cons.mp hp with rfl | hp
      · exact h _ (List.mem_cons_self _ _)
      · exact ih (fun p' hp' => h p' (List.mem_cons_of_mem _ hp')) p hp

lemma addCurrency_nonempty (d : CurrencyDict) (k : String) (x : Currency)
    (h : ∀ p ∈ d, p.2 ≠ []) : ∀ p ∈ addCurrency d k x, p.2 ≠ [] := by
  unfold addCurrency
  by_cases hck : containsKey d k = true
  · rw [if_pos hck]
    exact dictAppend_nonempty k x d h
  · rw [if_neg hck]
    intro p hp
    rcases List.mem_append.mp hp with hp | hp
    · exact h p hp
    · simp at hp
      subst hp
      simp

lemma stepRow_nonempty (q : Date) (d : CurrencyDict) (t : Row)
    (h : ∀ p ∈ d, p.2 ≠ []) : ∀ p ∈ stepRow q d t, p.2 ≠ [] := by
  unfold stepRow
  by_cases hq : t.record_date = q
  · rw [if_pos hq]
    exact addCurrency_nonempty d t.country _ h
  · rw [if_neg hq]
    exact h

lemma processRows_nonempty (q : Date) :
    ∀ (rows : List RawRow) (d : CurrencyDict) (m : CurrencyDict),
      (∀ p ∈ d, p.2 ≠ []) → processRows q rows d = Except.ok m →
      ∀ p ∈ m, p.2 ≠ [] := by
  intro rows
  induction rows with
  | nil =>
    intro d m h hm
    cases hm
    exact h
  | cons r rs ih =>
    intro d m h hm
    unfold processRows at hm
    cases hp : parseRow r with
    | error e => rw [hp] at hm; exact absurd hm (by simp)
    | ok t =>
      rw [hp] at hm
      exact ih (stepRow q d t) m (stepRow_nonempty q d t h) hm

lemma handle_request_errors_ok {α : Type} (x : Except PyExc α) (a : α)
    (h : handle_request_errors x = Except.ok a) : x = Except.ok a := by
  cases x with
  | ok b => simpa [handle_request_errors] using h
  | error e => cases e <;> simp [handle_request_errors] at h

lemma handle_request_errors_error {α : Type} (x : Except PyExc α) (e : PyExc)
    (h : handle_request_errors x = Except.error e) :
    e ≠ PyExc.HTTPError ∧ e ≠ PyExc.JSONDecodeError
      ∧ e ≠ PyExc.KeyError ∧ e ≠ PyExc.IndexError := by
  cases x with
  | ok b => simp [handle_request_errors] at h
  | error e' =>
    cases e' <;> simp [handle_request_errors] at h <;> subst h <;> simp

lemma parse_body_shape (now q : Date) (rows : List RawRow)
    (hq : find_last_quarter_date now = Except.ok q) :
    parse_treasury_response_body now ⟨200, some ⟨some rows⟩⟩ = processRows q rows [] := by
  unfold parse_treasury_response_body
  rw [hq]
  rfl

/-- The spec's three-row example payload: two Germany rows dated at the
quarter end, one France row dated off the quarter end. -/
def exampleRows : List RawRow :=
  [⟨some "2020-12-31", some "Germany", some "Euro", some (RateVal.num 0.94)⟩,
   ⟨some "2020-12-31", some "Germany", some "Other", some (RateVal.num 1.1)⟩,
   ⟨some "2020-11-30", some "France", some "Euro", some (RateVal.num 0.95)⟩]

def exampleResponse : Response := ⟨200, some ⟨some exampleRows⟩⟩

def exampleNow : Date := ⟨2023, 10, 5⟩

/-- C3: on any decodable payload the resulting mapping holds, for each
country, exactly the currencies of the rows dated at the resolved quarter
end, in input order — countries without matching rows are absent; at the
spec's example, the mapping is exactly one Germany entry with its two
currencies in input order and no France key. -/
theorem claim_C3_quarter_filter_grouping :
    (∀ (now q : Date) (rows : List RawRow) (ts : List Row),
        find_last_quarter_date now = Except.ok q →
        decodeRows rows = Except.ok ts →
        ∃ m, parse_treasury_response now ⟨200, some ⟨some rows⟩⟩ = Except.ok m
          ∧ ∀ c, assocLookup c m = listToOpt (specMatchingCurrencies q c ts))
    ∧ parse_treasury_response ⟨2021, 1, 15⟩ exampleResponse
        = Except.ok [("Germany",
            [⟨"Germany", "Euro", RateVal.num 0.94⟩,
             ⟨"Germany", "Other", RateVal.num 1.1⟩])] := by
  constructor
  · intro now q rows ts hq hrows
    refine ⟨List.foldl (stepRow q) [] ts, ?_, ?_⟩
    · rw [parse_treasury_response, parse_body_shape now q rows hq,
        processRows_of_decodeRows q rows ts [] hrows]
      rfl
    · intro c
      rw [foldl_stepRow_lookup, show assocLookup c [] = none from rfl, combineOpt_none]
  · with_unfolding_all decide

/-- Witness for C3's universal part at the example payload. -/
theorem claim_C3_quarter_filter_grouping_witness :
    ∃ m, parse_treasury_response ⟨2021, 1, 15⟩ ⟨200, some ⟨some exampleRows⟩⟩ = Except.ok m
      ∧ ∀ c, assocLookup c m = listToOpt (specMatchingCurrencies ⟨2020, 12, 31⟩ c
          [⟨⟨2020, 12, 31⟩, "Germany", "Euro", RateVal.num 0.94⟩,
           ⟨⟨2020, 12, 31⟩, "Germany", "Other", RateVal.num 1.1⟩,
           ⟨⟨2020, 11, 30⟩, "France", "Euro", RateVal.num 0.95⟩]) :=
  claim_C3_quarter_filter_grouping.1 ⟨2021, 1, 15⟩ ⟨2020, 12, 31⟩ exampleRows _
    (by with_unfolding_all decide) (by with_unfolding_all decide)

/-- C4: whatever error the parser raises, it is never one of the underlying
HTTP / JSON-decoding / key-lookup exception types — those are translated by
the decorator — and at the three failure modes the claim lists (HTTP 500,
undecodable body, row missing an expected field) the raised error is
exactly the single `BusinessLogicException` kind. -/
theorem claim_C4_single_error_kind :
    (∀ (now : Date) (resp : Response) (e : PyExc),
        parse_treasury_response now resp = Except.error e →
        e ≠ PyExc.HTTPError ∧ e ≠ PyExc.JSONDecodeError
          ∧ e ≠ PyExc.KeyError ∧ e ≠ PyExc.IndexError)
    ∧ parse_treasury_response exampleNow ⟨500, some ⟨some []⟩⟩
        = Except.error PyExc.BusinessLogicException
    ∧ parse_treasury_response exampleNow ⟨200, none⟩
        = Except.error PyExc.BusinessLogicException
    ∧ parse_treasury_response exampleNow
        ⟨200, some ⟨some [⟨none, some "Germany", some "Euro", some (RateVal.num 1)⟩]⟩⟩
        = Except.error PyExc.BusinessLogicException := by
  refine ⟨?_, by with_unfolding_all decide, by with_unfolding_all decide,
    by with_unfolding_all decide⟩
  intro now resp e h
  unfold parse_treasury_response at h
  exact handle_request_errors_error _ e h

/-- Witness for C4's universal part at the HTTP 500 input. -/
theorem claim_C4_single_error_kind_witness :
    PyExc.BusinessLogicException ≠ PyExc.HTTPError
      ∧ PyExc.BusinessLogicException ≠ PyExc.JSONDecodeError
      ∧ PyExc.BusinessLogicException ≠ PyExc.KeyError
      ∧ PyExc.BusinessLogicException ≠ PyExc.IndexError :=
  claim_C4_single_error_kind.1 exampleNow ⟨500, some ⟨some []⟩⟩
    PyExc.BusinessLogicException (by with_unfolding_all decide)

/-- C5: each of the three transport failures the fetch client catches —
timeout, connection failure, other request failure — surfaces to the caller
as one and the same `DalException`, never as the transport-specific type. -/
theorem claim_C5_uniform_transport_failure :
    fetch_treasury_data (Except.error RequestsError.Timeout)
        = Except.error PyExc.DalException
    ∧ fetch_treasury_data (Except.error RequestsError.ConnectionError)
        = Except.error PyExc.DalException
    ∧ fetch_treasury_data (Except.error RequestsError.RequestException)
        = Except.error PyExc.DalException
    ∧ ∀ (e : RequestsError),
        fetch_treasury_data (Except.error e) = Except.error PyExc.DalException := by
  refine ⟨rfl, rfl, rfl, ?_⟩
  intro e
  cases e <;> rfl

/-- Witness for C5's universal part at the timeout failure. -/
theorem claim_C5_uniform_transport_failure_witness :
    fetch_treasury_data (Except.error RequestsError.Timeout)
      = Except.error PyExc.DalException :=
  claim_C5_uniform_transport_failure.2.2.2 RequestsError.Timeout

/-- C6: an empty `data` array — and more generally a decodable payload none
of whose rows is dated at the resolved quarter end — yields the empty
mapping as a successful result, not an error. -/
theorem claim_C6_empty_is_ok :
    (∀ now : Date, now.month ≤ 12 →
        parse_treasury_response now ⟨200, some ⟨some []⟩⟩ = Except.ok [])
    ∧ (∀ (now q : Date) (rows : List RawRow) (ts : List Row),
        find_last_quarter_date now = Except.ok q →
        decodeRows rows = Except.ok ts →
        (∀ t ∈ ts, t.record_date ≠ q) →
        parse_treasury_response now ⟨200, some ⟨some rows⟩⟩ = Except.ok []) := by
  constructor
  · intro now h
    obtain ⟨q, hq⟩ := find_last_quarter_date_ok now h
    rw [parse_treasury_response, parse_body_shape now q [] hq]
    rfl
  · intro now q rows ts hq hrows hnm
    rw [parse_treasury_response, parse_body_shape now q rows hq,
      processRows_of_decodeRows q rows ts [] hrows,
      foldl_stepRow_nomatch q ts [] hnm]
    rfl

/-- Witness for C6 at a concrete reference date and the empty payload. -/
theorem claim_C6_empty_is_ok_witness :
    parse_treasury_response ⟨2023, 10, 5⟩ ⟨200, some ⟨some []⟩⟩ = Except.ok [] :=
  claim_C6_empty_is_ok.1 ⟨2023, 10, 5⟩ (by decide)

/-- C7: every value list of a mapping the parser returns is non-empty: a
country key is created only together with its first currency, and later
matching rows only append. -/
theorem claim_C7_values_nonempty (now : Date) (resp : Response) (m : CurrencyDict)
    (h : parse_treasury_response now resp = Except.ok m) :
    ∀ p ∈ m, p.2 ≠ [] := by
  unfold parse_treasury_response at h
  have hbody := handle_request_errors_ok _ m h
  unfold parse_treasury_response_body at hbody
  cases hrs : raise_for_status resp with
  | error e => rw [hrs] at hbody; exact absurd hbody (by simp)
  | ok u =>
    rw [hrs] at hbody
    cases hj : response_json resp with
    | error e => rw [hj] at hbody; exact absurd hbody (by simp)
    | ok pj =>
      rw [hj] at hbody
      cases hq : find_last_quarter_date now with
      | error e => rw [hq] at hbody; exact absurd hbody (by simp)
      | ok q =>
        rw [hq] at hbody
        have hbody2 : (match payload_data pj with
            | Except.error e => Except.error e
            | Except.ok rows => processRows q rows []) = Except.ok m := hbody
        cases hdata : payload_data pj with
        | error e => rw [hdata] at hbody2; exact absurd hbody2 (by simp)
        | ok rows =>
          rw [hdata] at hbody2
          exact processRows_nonempty q rows [] m (by intro p hp; cases hp) hbody2

/-- Witness for C7 at the Germany entry of the example payload's output. -/
theorem claim_C7_values_nonempty_witness :
    ([(⟨"Germany", "Euro", RateVal.num 0.94⟩ : Currency),
      ⟨"Germany", "Other", RateVal.num 1.1⟩] : List Currency) ≠ [] :=
  claim_C7_values_nonempty ⟨2021, 1, 15⟩ exampleResponse
    [("Germany", [⟨"Germany", "Euro", RateVal.num 0.94⟩,
      ⟨"Germany", "Other", RateVal.num 1.1⟩])]
    (by with_unfolding_all decide)
    ("Germany", [⟨"Germany", "Euro", RateVal.num 0.94⟩,
      ⟨"Germany", "Other", RateVal.num 1.1⟩])
    (List.mem_cons_self _ _)
